import Mathlib

/-!
Verification development for the stargate HTTP router.

The repository's `routes.rs` (route-grammar scanning) and `main.rs`
(per-request dispatch) are embedded directly.  The files `location.rs`
and `matcher.rs` are referenced by `main.rs` but are not part of the
source tree, so `SrcLocation.parse`, `DestLocation.parse` and the
matcher's resolution algorithm are modelled from the specification
(each such definition carries a doc comment saying so).

Machine-level details that the claims do not touch (tokio scheduling,
actual socket I/O, terminal colouring) are abstracted: the filesystem
and the upstream HTTP client appear as explicit oracle functions, so
that every result is quantified over all possible environments.
-/

set_option autoImplicit false

namespace Stargate

/-! ### Character-list string helpers

All string manipulation is done on `String.data` character lists so
that every definition evaluates by kernel reduction on literals. -/

/-- The test `charsPre p s` is true when the char list `p` is a leading segment of `s`. -/
def charsPre : List Char → List Char → Bool
  | [], _ => true
  | _ :: _, [] => false
  | a :: as, b :: bs => a == b && charsPre as bs

/-- Remove leading and trailing whitespace characters, as Rust's `str::trim`. -/
def trimChars (l : List Char) : List Char :=
  ((l.dropWhile Char.isWhitespace).reverse.dropWhile Char.isWhitespace).reverse

/-- Whitespace-trim a string, modelling Rust's `str::trim`. -/
def strTrim (s : String) : String := String.mk (trimChars s.data)

/-- The test `strStartsWith s p` is true when `p` is a leading segment of `s`. -/
def strStartsWith (s p : String) : Bool := charsPre p.data s.data

/-- True when the last character of `s` is `c`. -/
def strEndsWithChar (s : String) (c : Char) : Bool := s.data.getLast? == some c

/-! ### Location model

`location.rs` is not part of the source tree; the following types and
parsers are modelled from the specification (spec sections 3, 4.1, 6). -/

/-- Modelled from the spec: a source location is an address (host:port
specifier) together with a normalized path (the spec's `path_prefix`
field, here named `prefixPath`), which always starts with a slash. -/
structure SrcLocation where
  address : String
  prefixPath : String
deriving DecidableEq, Repr

/-- Modelled from the spec: a destination is either a remote origin URL
or a local filesystem root. -/
inductive DestLocation where
  | remoteOrigin (baseUrl : String)
  | localRoot (basePath : String)
deriving DecidableEq, Repr

/-- A declared route, as in `routes.rs`. -/
structure Route where
  src : SrcLocation
  dest : DestLocation
deriving DecidableEq, Repr

/-- Modelled from the spec: the per-request outcome of matching, either a
URL to proxy to or a filesystem path to serve. -/
inductive ResolvedLocation where
  | url (u : String)
  | filePath (p : String)
deriving DecidableEq, Repr

/-- True when every character of `l` is a decimal digit. -/
def allDigits (l : List Char) : Bool := l.all Char.isDigit

/-- Modelled from the spec: a syntactically valid `host:port` has a
nonempty host, a colon, and a nonempty all-digit port. -/
def validHostPort (l : List Char) : Bool :=
  let host := l.takeWhile (fun c => c != ':')
  match l.drop host.length with
  | ':' :: port => !host.isEmpty && !port.isEmpty && allDigits port
  | _ => false

/-- Modelled from the spec: `SrcLocation::parse` splits the token into an
address part and a path part (path part optional, defaulting to the
root slash) and fails when the address part is not a syntactically
valid host:port.  Tokens are whitespace-trimmed per the grammar. -/
def SrcLocation.parse (token : String) : Except String SrcLocation :=
  let chars := trimChars token.data
  let addrRaw := chars.takeWhile (fun c => c != '/')
  let restChars := chars.drop addrRaw.length
  let addr := trimChars addrRaw
  let path := if restChars.isEmpty then "/" else String.mk restChars
  if validHostPort addr then
    Except.ok { address := String.mk addr, prefixPath := path }
  else
    Except.error ("Invalid source location " ++ token)

/-- Modelled from the spec: `DestLocation::parse` produces a remote
origin when the token carries an http or https scheme (failing when
nothing follows the scheme), and otherwise a local filesystem root. -/
def DestLocation.parse (token : String) : Except String DestLocation :=
  if strStartsWith token "http://" then
    if token.data.length > 7 then Except.ok (DestLocation.remoteOrigin token)
    else Except.error ("Invalid URL " ++ token)
  else if strStartsWith token "https://" then
    if token.data.length > 8 then Except.ok (DestLocation.remoteOrigin token)
    else Except.error ("Invalid URL " ++ token)
  else
    Except.ok (DestLocation.localRoot token)

/-! ### Route grammar scanning (`routes.rs`, `from_args`)

The Rust source prints offending tokens wrapped in single quotation
marks; the embedded messages keep the same words and the same embedded
tokens, with the quotation marks left out. -/

/-- Error text produced when a parsed source location is not followed by
the word `to`, naming the offending source token (routes.rs line 38). -/
def toErrMsg (peeked : String) : String :=
  "Expecting the word to after the location " ++ peeked

/-- Error text produced when the destination token is missing
(routes.rs line 48). -/
def destMissingMsg (peeked : String) : String :=
  "Expecting a destination location to be provided after " ++ peeked ++ " to"

/-- Error text produced for a dangling `and` (routes.rs line 84). -/
def andErrMsg : String := "and not followed by a subsequent route"

/-- The scanning loop of `from_args` in `routes.rs`: `acc` is the list
of routes parsed so far and `expectsMore` records that an `and` was just
consumed.  Each step peeks the next token, tries to parse it as a source
location, requires (whitespace-trimmed) `to`, parses a destination, and
then either stops or consumes a (whitespace-trimmed) `and`. -/
def fromArgsLoop : List String → List Route → Bool → Except String (List Route × List String)
  | [], acc, expectsMore =>
    if expectsMore then Except.error andErrMsg else Except.ok (acc, [])
  | peeked :: rest, acc, expectsMore =>
    match SrcLocation.parse peeked with
    | Except.error _ =>
      if expectsMore then Except.error andErrMsg
      else Except.ok (acc, peeked :: rest)
    | Except.ok src =>
      match rest with
      | [] => Except.error (toErrMsg peeked)
      | joiner :: rest2 =>
        if strTrim joiner != "to" then Except.error (toErrMsg peeked)
        else
          match rest2 with
          | [] => Except.error (destMissingMsg peeked)
          | destTok :: rest3 =>
            match DestLocation.parse destTok with
            | Except.error e =>
              Except.error ("Error parsing " ++ destTok ++ ": " ++ e)
            | Except.ok dest =>
              match rest3 with
              | [] => Except.ok (acc ++ [⟨src, dest⟩], [])
              | nxt :: rest4 =>
                if strTrim nxt == "and" then
                  fromArgsLoop rest4 (acc ++ [⟨src, dest⟩]) true
                else
                  Except.ok (acc ++ [⟨src, dest⟩], nxt :: rest4)

/-- The function `from_args` from `routes.rs`: scan routes from the token stream,
returning them together with the unconsumed remaining tokens. -/
def from_args (args : List String) : Except String (List Route × List String) :=
  fromArgsLoop args [] false

/-! ### Matcher (spec-modelled; `matcher.rs` is not in the source tree) -/

/-- Modelled from the spec: segment-boundary prefix test.  `p` matches
`s` when `p` is a string prefix of `s` and the match ends at a path
segment boundary: the whole of `s`, a prefix ending in a slash, or a
prefix followed by a slash in `s`. -/
def isSegPrefixOf (p s : String) : Bool :=
  charsPre p.data s.data &&
    (p.data.length == s.data.length
      || p.data.getLast? == some '/'
      || s.data.get? p.data.length == some '/')

/-- A route matches a request path when its source path is a
segment-boundary prefix of the request path. -/
def routeMatches (r : Route) (path : String) : Bool :=
  isSegPrefixOf r.src.prefixPath path

/-- The length (in characters) of a route's source path. -/
def prefLen (r : Route) : Nat := r.src.prefixPath.data.length

/-- Modelled from the spec: select, among the routes whose source path is
a segment-boundary prefix of the request path, the one with the longest
such path; on equal lengths the earliest-declared route wins.  An
earlier route is replaced only by a strictly longer later one. -/
def bestRoute (path : String) : List Route → Option Route
  | [] => none
  | r :: rs =>
    match bestRoute path rs with
    | none => if routeMatches r path then some r else none
    | some b =>
      if routeMatches r path then
        if prefLen b > prefLen r then some b else some r
      else some b

/-- Modelled from the spec: the remainder is the request path with the
matched source path stripped, preserving a single leading slash. -/
def remainderOf (pre path : String) : String :=
  let rem := path.data.drop pre.data.length
  if charsPre ['/'] rem then String.mk rem else String.mk ('/' :: rem)

/-- Modelled from the spec: build the per-request resolved location from
the selected route — the destination base with the remainder appended. -/
def mkResolved (r : Route) (path : String) : ResolvedLocation :=
  let rem := remainderOf r.src.prefixPath path
  match r.dest with
  | DestLocation.remoteOrigin base => ResolvedLocation.url (base ++ rem)
  | DestLocation.localRoot base => ResolvedLocation.filePath (base ++ rem)

/-- Modelled from the spec: `Matcher::resolve` — longest-prefix route
selection followed by remainder rewriting; `none` signals no match. -/
def matcherResolve (routes : List Route) (path : String) : Option ResolvedLocation :=
  match bestRoute path routes with
  | none => none
  | some r => some (mkResolved r path)

/-! ### Request dispatch (`main.rs`)

The filesystem is an oracle `fsRead : String → Except String String`
(path to error text or file contents), MIME inference is an oracle
`mimeGuess : String → String` (the `mime_guess` crate), and the
upstream HTTP client is an oracle `proxy`. -/

/-- An HTTP response as the dispatcher builds it: status, the
Content-Type header when one is set, and the body. -/
structure HttpResponse where
  status : Nat
  contentType : Option String
  body : String
deriving DecidableEq, Repr

/-- The one structured log event `handle_request` emits per request. -/
inductive LogEvent where
  | noMatch (srcPath : String)
  | handled (status : Nat) (srcPath : String) (destPath : String)
  | failed (srcPath : String) (destPath : String) (err : String)
deriving DecidableEq, Repr

/-- Log severity: `handle_request` logs the no-match and error branches
with `warn!` and the handled branch with `info!`. -/
inductive LogClass where
  | info
  | warning
deriving DecidableEq, Repr

/-- Severity of each log event, following `main.rs` lines 116, 135, 145. -/
def logClassOf : LogEvent → LogClass
  | LogEvent.noMatch _ => LogClass.warning
  | LogEvent.handled _ _ _ => LogClass.info
  | LogEvent.failed _ _ _ => LogClass.warning

/-- Rust's `PathBuf::push` on a relative component: append, inserting a slash
separator when one is not already present. -/
def pushPath (p e : String) : String :=
  if strEndsWithChar p '/' then p ++ e else p ++ "/" ++ e

/-- The three file candidates `do_handle_request` tries, in order
(main.rs line 178): the resolved path itself, then with `index.htm`
appended, then with `index.html` appended. -/
def fileCandidates (path : String) : List String :=
  [path, pushPath path "index.htm", pushPath path "index.html"]

/-- The read loop of `do_handle_request` (main.rs lines 175-184):
try each candidate in order, stopping at the first successful read.
Returns the last MIME guess made, the last read result, and the list of
paths actually handed to `fs::read`, in order. -/
def readLoop (fsRead : String → Except String String)
    (mimeGuess : String → String) :
    List String → Option String × Except String String × List String
  | [] => (none, Except.error "File not found", [])
  | p :: rest =>
    match fsRead p with
    | Except.ok contents => (some (mimeGuess p), Except.ok contents, [p])
    | Except.error e =>
      match rest with
      | [] => (some (mimeGuess p), Except.error e, [p])
      | _ :: _ =>
        let (m, f, att) := readLoop fsRead mimeGuess rest
        (m, f, p :: att)

/-- The `ResolvedLocation::FilePath` branch of `do_handle_request`
(main.rs lines 174-203): run the read loop; on success answer 200 with
the guessed content type and the file bytes, otherwise answer 404 with
a body naming the originally resolved path and the last read error.
Also returns the list of paths read. -/
def doHandleFilePath (fsRead : String → Except String String)
    (mimeGuess : String → String) (path : String) :
    HttpResponse × List String :=
  match readLoop fsRead mimeGuess (fileCandidates path) with
  | (mime, Except.ok contents, att) =>
    ({ status := 200, contentType := mime, body := contents }, att)
  | (_, Except.error e, att) =>
    ({ status := 404, contentType := none,
       body := "Weave: Could not read file " ++ path ++ ": " ++ e }, att)

/-- The function `do_handle_request` (main.rs lines 156-205): proxy to the resolved
URL or serve from the filesystem.  Returns the response (or the
transport error for the caller to turn into a 500), the file paths
read, and the upstream URLs called. -/
def doHandleRequest (fsRead : String → Except String String)
    (mimeGuess : String → String)
    (proxy : String → Except String HttpResponse)
    (dest : ResolvedLocation) :
    Except String HttpResponse × List String × List String :=
  match dest with
  | ResolvedLocation.url u => (proxy u, [], [u])
  | ResolvedLocation.filePath p =>
    let (resp, att) := doHandleFilePath fsRead mimeGuess p
    (Except.ok resp, att, [])

/-- Rendering of a resolved location in log lines
(`dest_path.to_string()` in main.rs). -/
def destShow : ResolvedLocation → String
  | ResolvedLocation.url u => u
  | ResolvedLocation.filePath p => p

/-- Everything one call of `handle_request` produces: the response, the
single log event, and the traces of filesystem reads and proxy calls. -/
structure Outcome where
  resp : HttpResponse
  log : LogEvent
  fileReads : List String
  proxyCalls : List String
deriving DecidableEq, Repr

/-- The function `handle_request` (main.rs lines 107-154): resolve the request path;
no match answers a fixed 404 and a warning; otherwise dispatch, turning
a transport error into a 500 whose body embeds the error text. -/
def handleRequest (fsRead : String → Except String String)
    (mimeGuess : String → String)
    (proxy : String → Except String HttpResponse)
    (routes : List Route) (srcPath path : String) : Outcome :=
  match matcherResolve routes path with
  | none =>
    { resp := { status := 404, contentType := none,
                body := "Weave: No routes matched" },
      log := LogEvent.noMatch srcPath,
      fileReads := [], proxyCalls := [] }
  | some dest =>
    match doHandleRequest fsRead mimeGuess proxy dest with
    | (Except.ok resp, att, prox) =>
      { resp := resp,
        log := LogEvent.handled resp.status srcPath (destShow dest),
        fileReads := att, proxyCalls := prox }
    | (Except.error e, att, prox) =>
      { resp := { status := 500, contentType := none,
                  body := "Weave: " ++ e },
        log := LogEvent.failed srcPath (destShow dest) e,
        fileReads := att, proxyCalls := prox }

/-! ### Listener bootstrap partitioning (`main.rs`, `run`)

DNS resolution of a route's listen address (`src_socket_addr`) is an
external effect; it is abstracted as a key function `addrOf`. -/

/-- One step of the partitioning loop in `run` (main.rs lines 61-66):
append the route to the vector stored under its own listen address. -/
def partitionStep {α : Type} [DecidableEq α] (addrOf : Route → α)
    (m : α → List Route) (r : Route) : α → List Route :=
  fun a => if a = addrOf r then m a ++ [r] else m a

/-- The partitioning loop of `run`: fold the declared routes, in order,
into a map from listen address to the routes served there. -/
def partitionByAddr {α : Type} [DecidableEq α] (addrOf : Route → α)
    (routes : List Route) : α → List Route :=
  routes.foldl (partitionStep addrOf) (fun _ => [])

/-! ### Path-traversal analysis helpers

Used to state what filesystem path the dispatcher actually reads when
the request remainder contains dot-dot segments. -/

/-- Split a character list at every slash. -/
def splitSlash : List Char → List (List Char)
  | [] => [[]]
  | c :: rest =>
    if c = '/' then [] :: splitSlash rest
    else
      match splitSlash rest with
      | [] => [[c]]
      | seg :: segs => (c :: seg) :: segs

/-- The nonempty slash-separated segments of a path string. -/
def rawSegs (s : String) : List (List Char) :=
  (splitSlash s.data).filter (fun seg => !seg.isEmpty)

/-- Normalize path segments with a stack: a single-dot segment is
dropped, a dot-dot segment pops the last real segment (dot-dot segments
that step above the root are kept), anything else is pushed. -/
def normStack : List (List Char) → List (List Char) → List (List Char)
  | stack, [] => stack.reverse
  | stack, seg :: rest =>
    if seg == ['.'] then normStack stack rest
    else if seg == ['.', '.'] then
      match stack with
      | [] => normStack [['.', '.']] rest
      | top :: s =>
        if top == ['.', '.'] then normStack (seg :: stack) rest
        else normStack s rest
    else normStack (seg :: stack) rest

/-- The test `segsPre a b` is true when segment list `a` leads segment list `b`. -/
def segsPre : List (List Char) → List (List Char) → Bool
  | [], _ => true
  | _ :: _, [] => false
  | a :: as, b :: bs => a == b && segsPre as bs

/-- The dot-dot-normalized segments of a path string. -/
def normalizedSegs (s : String) : List (List Char) :=
  normStack [] (rawSegs s)

/-- A path `p` escapes `base` when, after dot-dot normalization, the
segments of `base` no longer lead the segments of `p`. -/
def pathEscapes (base p : String) : Bool :=
  !(segsPre (normalizedSegs base) (normalizedSegs p))

/-! ### Concrete demonstration inputs used by witness theorems -/

/-- A filesystem oracle on which every read fails, as an empty root. -/
def fsEmpty : String → Except String String :=
  fun _ => Except.error "No such file or directory (os error 2)"

/-- A filesystem oracle holding exactly one readable file. -/
def fsOnlyIndexHtm : String → Except String String :=
  fun p => if p = "/w/index.htm" then Except.ok "hello" else Except.error "nf"

/-- A MIME oracle answering the octet-stream fallback everywhere. -/
def mimeOctet : String → String := fun _ => "application/octet-stream"

/-- An upstream oracle on which every proxied call fails. -/
def proxyDown : String → Except String HttpResponse :=
  fun _ => Except.error "connection refused"

/-- A demonstration route with a short source path. -/
def demoApi : Route := ⟨⟨"h:1", "/api"⟩, DestLocation.localRoot "/srv/a"⟩

/-- A demonstration route whose source path extends that of `demoApi`. -/
def demoApiV1 : Route := ⟨⟨"h:1", "/api/v1"⟩, DestLocation.localRoot "/srv/b"⟩

/-- The two demonstration routes in declaration order. -/
def demoRoutes : List Route := [demoApi, demoApiV1]

/-- A route serving the local directory `/srv` under `/files`. -/
def travRoute : Route := ⟨⟨"h:1", "/files"⟩, DestLocation.localRoot "/srv"⟩

/-! ## Theorems -/

/-- C5 counterexample: the claim requires failure whenever the token
after a source location is not exactly `to`, but `routes.rs` trims the
token before comparing, so the stream with middle token enclosing `to`
in spaces parses successfully to one route. -/
theorem to_trim_counterexample :
    SrcLocation.parse "h:1/a" = Except.ok ⟨"h:1", "/a"⟩ ∧
    " to " ≠ "to" ∧
    from_args ["h:1/a", " to ", "x"] =
      Except.ok ([⟨⟨"h:1", "/a"⟩, DestLocation.localRoot "x"⟩], []) :=
  ⟨by rfl, by decide, by rfl⟩

/-- C5 (amended): when a token parses as a source location and the next
token is absent or does not equal `to` after whitespace trimming, the
scan fails with the error naming that source token, from any scanner
state; in particular `from_args` fails so, and the error result carries
no routes. -/
theorem missing_to_fails_named_error (t : String) (rest : List String)
    (acc : List Route) (em : Bool) (src : SrcLocation)
    (hsrc : SrcLocation.parse t = Except.ok src)
    (hnext : rest = [] ∨ ∃ j rest2, rest = j :: rest2 ∧ strTrim j ≠ "to") :
    fromArgsLoop (t :: rest) acc em = Except.error (toErrMsg t) ∧
    from_args (t :: rest) = Except.error (toErrMsg t) := by
  have key : ∀ (acc' : List Route) (em' : Bool),
      fromArgsLoop (t :: rest) acc' em' = Except.error (toErrMsg t) := by
    intro acc' em'
    rcases hnext with h | ⟨j, rest2, hr, hj⟩
    · subst h
      simp [fromArgsLoop, hsrc]
    · subst hr
      simp [fromArgsLoop, hsrc, bne_iff_ne, hj]
  exact ⟨key acc em, key [] false⟩

/-- C5 witness: the spec's own example stream fails naming the source
token, from the initial scanner state. -/
theorem missing_to_fails_named_error_witness :
    fromArgsLoop ["h:1/a", "foo", "bar"] [] false
      = Except.error (toErrMsg "h:1/a") ∧
    from_args ["h:1/a", "foo", "bar"] = Except.error (toErrMsg "h:1/a") :=
  missing_to_fails_named_error "h:1/a" ["foo", "bar"] [] false ⟨"h:1", "/a"⟩
    (by rfl) (Or.inr ⟨"foo", ["bar"], rfl, by decide⟩)

/-- C6 counterexample: a stream where a parsed route is followed by
`and` and no further route can be parsed (the next token is a source
location but the word after it is not `to`), yet the parse error is the
missing-`to` error naming that token, not the dangling-`and` error the
claim requires. -/
theorem and_error_counterexample :
    from_args ["h:1/a", "to", "x", "and", "h:1/b", "bogus"] =
      Except.error (toErrMsg "h:1/b") ∧
    toErrMsg "h:1/b" ≠ andErrMsg :=
  ⟨by rfl, by decide⟩

/-- C6 (amended): after a consumed `and` (scanner state with the
expects-more flag set), when the stream ends or the next token does not
parse as a source location, the scan fails with the dangling-`and`
error. -/
theorem dangling_and_fails (rest : List String) (acc : List Route)
    (hnext : rest = [] ∨
      ∃ t rest2 e, rest = t :: rest2 ∧ SrcLocation.parse t = Except.error e) :
    fromArgsLoop rest acc true = Except.error andErrMsg := by
  rcases hnext with h | ⟨t, rest2, e, hr, ht⟩
  · subst h
    simp [fromArgsLoop]
  · subst hr
    simp [fromArgsLoop, ht]

/-- C6 witness: the stream ending right after a consumed `and` fails
with the dangling-`and` error, and so does the full example stream with
a trailing `and`. -/
theorem dangling_and_fails_witness :
    fromArgsLoop [] [] true = Except.error andErrMsg ∧
    from_args ["h:1/a", "to", "x", "and"] = Except.error andErrMsg :=
  ⟨dangling_and_fails [] [] (Or.inl rfl), by rfl⟩

/-- C7: when the token at the scan position does not parse as a source
location and the scanner is not right after an `and`, the scan succeeds
with the routes accumulated so far and every remaining token
unconsumed, starting with the failing token; in particular `from_args`
on such a stream returns no routes and the whole stream. -/
theorem non_location_token_stops_scan (t : String) (rest : List String)
    (acc : List Route) (e : String)
    (hsrc : SrcLocation.parse t = Except.error e) :
    fromArgsLoop (t :: rest) acc false = Except.ok (acc, t :: rest) ∧
    from_args (t :: rest) = Except.ok ([], t :: rest) := by
  constructor
  · simp [fromArgsLoop, hsrc]
  · show fromArgsLoop (t :: rest) [] false = Except.ok ([], t :: rest)
    simp [fromArgsLoop, hsrc]

/-- C7 witness: a non-location token stops the scan cleanly, returning
the accumulated route and the unconsumed tokens. -/
theorem non_location_token_stops_scan_witness :
    fromArgsLoop ["foo", "bar"] [demoApi] false
      = Except.ok ([demoApi], ["foo", "bar"]) ∧
    from_args ["foo", "bar"] = Except.ok ([], ["foo", "bar"]) :=
  non_location_token_stops_scan "foo" ["bar"] [demoApi]
    "Invalid source location foo" (by rfl)

/-- The partition fold of `run` computes, under each address key, the
filter of the declared route list on that key, for any initial map. -/
theorem partition_foldl_filter {α : Type} [DecidableEq α]
    (addrOf : Route → α) (routes : List Route) :
    ∀ (m : α → List Route) (a : α),
      routes.foldl (partitionStep addrOf) m a
        = m a ++ routes.filter (fun r => decide (addrOf r = a)) := by
  induction routes with
  | nil => intro m a; simp
  | cons r rs ih =>
    intro m a
    rw [List.foldl_cons, ih]
    by_cases h : addrOf r = a
    · have h' : a = addrOf r := h.symm
      simp [partitionStep, if_pos h', List.filter_cons, h]
    · have h' : a ≠ addrOf r := fun hh => h hh.symm
      simp [partitionStep, if_neg h', List.filter_cons, h]

/-- C10: partitioning the declared routes by listen address yields,
under every address, exactly the declared routes with that address in
their original declaration order (the filter of the declaration list),
so each per-address route vector preserves grammar order. -/
theorem partition_by_addr_preserves_order {α : Type} [DecidableEq α]
    (addrOf : Route → α) (routes : List Route) (a : α) :
    partitionByAddr addrOf routes a
      = routes.filter (fun r => decide (addrOf r = a)) := by
  unfold partitionByAddr
  rw [partition_foldl_filter]
  simp

/-- C3: when no route matches, `handle_request` answers the fixed 404
body, emits the warning-class no-match log event, performs no file read
and no proxy call, and the outcome is the same for every filesystem,
MIME and upstream oracle (no dependence on any environment state). -/
theorem no_match_fixed_404_without_side_effects
    (fsRead : String → Except String String) (mimeGuess : String → String)
    (proxy : String → Except String HttpResponse)
    (routes : List Route) (srcPath path : String)
    (h : matcherResolve routes path = none) :
    handleRequest fsRead mimeGuess proxy routes srcPath path =
      { resp := { status := 404, contentType := none,
                  body := "Weave: No routes matched" },
        log := LogEvent.noMatch srcPath,
        fileReads := [], proxyCalls := [] } ∧
    logClassOf (LogEvent.noMatch srcPath) = LogClass.warning := by
  constructor
  · simp [handleRequest, h]
  · rfl

/-- C3 witness: on an empty route table every request gets the fixed
404 outcome with no reads and no proxy calls. -/
theorem no_match_fixed_404_without_side_effects_witness :
    handleRequest fsEmpty mimeOctet proxyDown [] "h:1/x" "/x" =
      { resp := { status := 404, contentType := none,
                  body := "Weave: No routes matched" },
        log := LogEvent.noMatch "h:1/x",
        fileReads := [], proxyCalls := [] } ∧
    logClassOf (LogEvent.noMatch "h:1/x") = LogClass.warning :=
  no_match_fixed_404_without_side_effects fsEmpty mimeOctet proxyDown []
    "h:1/x" "/x" (by rfl)

/-- C4: when all three file candidates fail to read, whatever the three
failure reasons are, the dispatcher answers 404 with a body naming the
originally resolved path and the read error (the one of the last
candidate tried), after attempting all three candidates. -/
theorem file_all_candidates_fail_404
    (fsRead : String → Except String String) (mimeGuess : String → String)
    (path e0 e1 e2 : String)
    (h0 : fsRead path = Except.error e0)
    (h1 : fsRead (pushPath path "index.htm") = Except.error e1)
    (h2 : fsRead (pushPath path "index.html") = Except.error e2) :
    doHandleFilePath fsRead mimeGuess path =
      ({ status := 404, contentType := none,
         body := "Weave: Could not read file " ++ path ++ ": " ++ e2 },
       fileCandidates path) := by
  simp [doHandleFilePath, fileCandidates, readLoop, h0, h1, h2]

/-- C4 witness: on the all-failing filesystem the dispatcher answers
404 naming the resolved path, after trying the three candidates. -/
theorem file_all_candidates_fail_404_witness :
    doHandleFilePath fsEmpty mimeOctet "/w" =
      ({ status := 404, contentType := none,
         body := "Weave: Could not read file /w: "
           ++ "No such file or directory (os error 2)" },
       fileCandidates "/w") :=
  file_all_candidates_fail_404 fsEmpty mimeOctet "/w"
    "No such file or directory (os error 2)"
    "No such file or directory (os error 2)"
    "No such file or directory (os error 2)" (by rfl) (by rfl) (by rfl)

/-- C2: the candidate list is exactly the resolved path, then the path
with `index.htm` appended, then with `index.html` appended; when the
first readable candidate is the one at position `i`, the dispatcher
reads exactly the candidates up to and including position `i`, answers
200 with the content type inferred from that successful candidate, and
the body is that candidate's bytes. -/
theorem file_dispatch_candidate_order
    (fsRead : String → Except String String) (mimeGuess : String → String)
    (path : String) (i : Nat) (c b : String)
    (hc : (fileCandidates path).get? i = some c)
    (hfail : ∀ j cj, j < i → (fileCandidates path).get? j = some cj →
      ∃ e, fsRead cj = Except.error e)
    (hok : fsRead c = Except.ok b) :
    fileCandidates path
      = [path, pushPath path "index.htm", pushPath path "index.html"] ∧
    doHandleFilePath fsRead mimeGuess path =
      ({ status := 200, contentType := some (mimeGuess c), body := b },
       (fileCandidates path).take (i + 1)) := by
  refine ⟨rfl, ?_⟩
  match i with
  | 0 =>
    have hc' : path = c := by simpa [fileCandidates] using hc
    subst hc'
    simp [doHandleFilePath, fileCandidates, readLoop, hok]
  | 1 =>
    have hc' : pushPath path "index.htm" = c := by
      simpa [fileCandidates] using hc
    subst hc'
    obtain ⟨ea, ha⟩ := hfail 0 path (by omega) (by simp [fileCandidates])
    simp [doHandleFilePath, fileCandidates, readLoop, ha, hok]
  | 2 =>
    have hc' : pushPath path "index.html" = c := by
      simpa [fileCandidates] using hc
    subst hc'
    obtain ⟨ea, ha⟩ := hfail 0 path (by omega) (by simp [fileCandidates])
    obtain ⟨eb, hb⟩ := hfail 1 (pushPath path "index.htm") (by omega)
      (by simp [fileCandidates])
    simp [doHandleFilePath, fileCandidates, readLoop, ha, hb, hok]
  | n + 3 =>
    exfalso
    simp [fileCandidates] at hc

/-- C2 witness: with only `/w/index.htm` readable, the dispatcher reads
the resolved path, then stops at `/w/index.htm`, answering 200 with the
inferred content type and that file's bytes. -/
theorem file_dispatch_candidate_order_witness :
    fileCandidates "/w" = ["/w", "/w/index.htm", "/w/index.html"] ∧
    doHandleFilePath fsOnlyIndexHtm mimeOctet "/w" =
      ({ status := 200, contentType := some "application/octet-stream",
         body := "hello" },
       ["/w", "/w/index.htm"]) := by
  have h := file_dispatch_candidate_order fsOnlyIndexHtm mimeOctet "/w" 1
    "/w/index.htm" "hello" (by rfl)
    (by
      intro j cj hj hcj
      interval_cases j
      have hcj' : "/w" = cj := by simpa [fileCandidates] using hcj
      exact ⟨"nf", by rw [← hcj']; rfl⟩)
    (by rfl)
  exact ⟨h.1, by simpa [mimeOctet, fileCandidates, pushPath] using h.2⟩

/-- C8: every request falls into exactly one of four total cases — no
match, upstream transport failure, upstream success, or file serving —
and in each case `handle_request` produces an HTTP response together
with a single log event; in particular the no-route case answers 404,
a transport failure answers 500 embedding the error text, and the file
case always answers through `doHandleFilePath` (which never raises).
The embedding is a total function, so no case aborts. -/
theorem per_request_errors_become_responses
    (fsRead : String → Except String String) (mimeGuess : String → String)
    (proxy : String → Except String HttpResponse)
    (routes : List Route) (srcPath path : String) :
    (matcherResolve routes path = none ∧
      handleRequest fsRead mimeGuess proxy routes srcPath path =
        { resp := { status := 404, contentType := none,
                    body := "Weave: No routes matched" },
          log := LogEvent.noMatch srcPath,
          fileReads := [], proxyCalls := [] }) ∨
    (∃ u e, matcherResolve routes path = some (ResolvedLocation.url u) ∧
      proxy u = Except.error e ∧
      handleRequest fsRead mimeGuess proxy routes srcPath path =
        { resp := { status := 500, contentType := none,
                    body := "Weave: " ++ e },
          log := LogEvent.failed srcPath u e,
          fileReads := [], proxyCalls := [u] }) ∨
    (∃ u r, matcherResolve routes path = some (ResolvedLocation.url u) ∧
      proxy u = Except.ok r ∧
      handleRequest fsRead mimeGuess proxy routes srcPath path =
        { resp := r, log := LogEvent.handled r.status srcPath u,
          fileReads := [], proxyCalls := [u] }) ∨
    (∃ p, matcherResolve routes path = some (ResolvedLocation.filePath p) ∧
      handleRequest fsRead mimeGuess proxy routes srcPath path =
        { resp := (doHandleFilePath fsRead mimeGuess p).1,
          log := LogEvent.handled (doHandleFilePath fsRead mimeGuess p).1.status
            srcPath p,
          fileReads := (doHandleFilePath fsRead mimeGuess p).2,
          proxyCalls := [] }) := by
  cases hres : matcherResolve routes path with
  | none =>
    exact Or.inl ⟨rfl, by simp [handleRequest, hres]⟩
  | some dest =>
    cases dest with
    | url u =>
      cases hp : proxy u with
      | error e =>
        refine Or.inr (Or.inl ⟨u, e, rfl, hp, ?_⟩)
        simp [handleRequest, hres, doHandleRequest, hp, destShow]
      | ok r =>
        refine Or.inr (Or.inr (Or.inl ⟨u, r, rfl, hp, ?_⟩))
        simp [handleRequest, hres, doHandleRequest, hp, destShow]
    | filePath p =>
      refine Or.inr (Or.inr (Or.inr ⟨p, rfl, ?_⟩))
      rcases hdp : doHandleFilePath fsRead mimeGuess p with ⟨resp, att⟩
      simp [handleRequest, hres, doHandleRequest, hdp, destShow]

/-- When route selection finds nothing, no route's source path is a
segment-boundary prefix of the request path. -/
theorem bestRoute_none_spec (path : String) (rs : List Route)
    (h : bestRoute path rs = none) :
    ∀ r ∈ rs, routeMatches r path = false := by
  induction rs with
  | nil => intro r hr; simp at hr
  | cons r rs ih =>
    intro r' hr'
    cases hb : bestRoute path rs with
    | none =>
      cases hm : routeMatches r path with
      | true => simp [bestRoute, hb, hm] at h
      | false =>
        rcases List.mem_cons.mp hr' with h1 | h1
        · subst h1; exact hm
        · exact ih hb r' h1
    | some b =>
      cases hm : routeMatches r path with
      | true =>
        by_cases hgt : prefLen b > prefLen r <;> simp [bestRoute, hb, hm, hgt] at h
      | false => simp [bestRoute, hb, hm] at h

/-- When route selection returns a route, that route matches, occurs in
the list, every matching route's source path is at most as long, and a
matching route of equal length sits at the same position or later. -/
theorem bestRoute_some_spec (path : String) (rs : List Route) :
    ∀ b, bestRoute path rs = some b →
      routeMatches b path = true ∧
      ∃ i, rs.get? i = some b ∧
        ∀ j r', rs.get? j = some r' → routeMatches r' path = true →
          prefLen r' ≤ prefLen b ∧ (prefLen r' = prefLen b → i ≤ j) := by
  induction rs with
  | nil => intro b hb; simp [bestRoute] at hb
  | cons r rs ih =>
    intro b hb
    cases hbr : bestRoute path rs with
    | none =>
      cases hm : routeMatches r path with
      | false => simp [bestRoute, hbr, hm] at hb
      | true =>
        have hbb : r = b := by simpa [bestRoute, hbr, hm] using hb
        subst hbb
        refine ⟨hm, 0, rfl, ?_⟩
        intro j r' hj hm'
        match j with
        | 0 =>
          have h0 : r = r' := by simpa using hj
          subst h0
          exact ⟨le_refl _, fun _ => le_refl _⟩
        | j + 1 =>
          have hmem : r' ∈ rs := List.get?_mem (by simpa using hj)
          have hF := bestRoute_none_spec path rs hbr r' hmem
          rw [hF] at hm'
          cases hm'
    | some b' =>
      obtain ⟨hmb', i', hi', hall⟩ := ih b' hbr
      cases hm : routeMatches r path with
      | false =>
        have hbb : b' = b := by simpa [bestRoute, hbr, hm] using hb
        subst hbb
        refine ⟨hmb', i' + 1, by simpa using hi', ?_⟩
        intro j r' hj hm'
        match j with
        | 0 =>
          have h0 : r = r' := by simpa using hj
          subst h0
          rw [hm] at hm'
          cases hm'
        | j + 1 =>
          have hj' : rs.get? j = some r' := by simpa using hj
          obtain ⟨hle, heq⟩ := hall j r' hj' hm'
          exact ⟨hle, fun he => Nat.succ_le_succ (heq he)⟩
      | true =>
        by_cases hgt : prefLen b' > prefLen r
        · have hbb : b' = b := by simpa [bestRoute, hbr, hm, hgt] using hb
          subst hbb
          refine ⟨hmb', i' + 1, by simpa using hi', ?_⟩
          intro j r' hj hm'
          match j with
          | 0 =>
            have h0 : r = r' := by simpa using hj
            subst h0
            exact ⟨Nat.le_of_lt hgt, fun he => by omega⟩
          | j + 1 =>
            have hj' : rs.get? j = some r' := by simpa using hj
            obtain ⟨hle, heq⟩ := hall j r' hj' hm'
            exact ⟨hle, fun he => Nat.succ_le_succ (heq he)⟩
        · have hbb : r = b := by simpa [bestRoute, hbr, hm, hgt] using hb
          subst hbb
          have hle' : prefLen b' ≤ prefLen r := Nat.le_of_not_lt hgt
          refine ⟨hm, 0, rfl, ?_⟩
          intro j r' hj hm'
          match j with
          | 0 =>
            have h0 : r = r' := by simpa using hj
            subst h0
            exact ⟨le_refl _, fun _ => Nat.zero_le _⟩
          | j + 1 =>
            have hj' : rs.get? j = some r' := by simpa using hj
            obtain ⟨hle, _⟩ := hall j r' hj' hm'
            exact ⟨le_trans hle hle', fun _ => Nat.zero_le _⟩

/-- C1: `matcherResolve` answers nothing exactly when no route's source
path is a segment-boundary prefix of the request path; otherwise the
selected route matches, every matching route has an at-most-as-long
source path, a matching route of equal length does not occur earlier in
declaration order, and the resolution is built from the selected
route. -/
theorem matcher_selects_longest_then_earliest
    (routes : List Route) (path : String) :
    (bestRoute path routes = none →
      matcherResolve routes path = none ∧
      ∀ r ∈ routes, routeMatches r path = false) ∧
    (∀ b, bestRoute path routes = some b →
      matcherResolve routes path = some (mkResolved b path) ∧
      routeMatches b path = true ∧
      ∃ i, routes.get? i = some b ∧
        ∀ j r', routes.get? j = some r' → routeMatches r' path = true →
          prefLen r' ≤ prefLen b ∧ (prefLen r' = prefLen b → i ≤ j)) := by
  constructor
  · intro h
    exact ⟨by simp [matcherResolve, h], bestRoute_none_spec path routes h⟩
  · intro b hb
    obtain ⟨h1, h2⟩ := bestRoute_some_spec path routes b hb
    exact ⟨by simp [matcherResolve, hb], h1, h2⟩

/-- C1 witness: on two routes with nested source paths, the request
under both resolves through the longer one. -/
theorem matcher_selects_longest_then_earliest_witness :
    matcherResolve demoRoutes "/api/v1/x"
      = some (mkResolved demoApiV1 "/api/v1/x") ∧
    routeMatches demoApiV1 "/api/v1/x" = true ∧
    (∃ i, demoRoutes.get? i = some demoApiV1 ∧
      ∀ j r', demoRoutes.get? j = some r' →
        routeMatches r' "/api/v1/x" = true →
        prefLen r' ≤ prefLen demoApiV1 ∧
          (prefLen r' = prefLen demoApiV1 → i ≤ j)) :=
  (matcher_selects_longest_then_earliest demoRoutes "/api/v1/x").2
    demoApiV1 (by rfl)

/-- C9: with a route serving the directory base under a declared source
path, a request whose remainder holds dot-dot segments resolves to a
filesystem path that steps out of that base; the dispatcher hands
exactly that path to the filesystem first, with no rejection and no
neutralization anywhere before the read. -/
theorem traversal_reaches_filesystem :
    matcherResolve [travRoute] "/files/../../etc/passwd"
      = some (ResolvedLocation.filePath "/srv/../../etc/passwd") ∧
    (handleRequest fsEmpty mimeOctet proxyDown [travRoute]
        "h:1/files/../../etc/passwd" "/files/../../etc/passwd").fileReads.head?
      = some "/srv/../../etc/passwd" ∧
    pathEscapes "/srv" "/srv/../../etc/passwd" = true :=
  ⟨by rfl, by rfl, by rfl⟩

end Stargate
